import Mathlib

/-!
Shallow embedding of the core subsystems of the jormungandr node:
the fragment mempool (`fragment/pool.rs`), the notifier hub
(`notifier/mod.rs`), the peer client driver (`network/client/mod.rs`),
the connection establishment (`network/client/connect.rs`), the gossip
`peers` RPC (`network/service.rs`) and the vote-plan proposals
deserializer (`jormungandr-lib/src/interfaces/vote.rs`).

External dependencies (the `lru` crate cache, `chain_impl_mockchain`
transactions and proposals, channels) are modelled by explicit data;
machine behaviour of the repository's own functions is translated
statement by statement from the source.
-/

namespace Jormungandr

/-! ## Fragment data model

`FragmentId` is an opaque 32-byte content hash; we model it as a `Nat`
carried inside the fragment.  `verify_possibly_balanced` lives in the
external `chain_impl_mockchain` crate; its verdict is abstracted as the
`balanced` flag stored in each transaction-carrying variant. -/

abbrev FragmentId := Nat

/-- The `Fragment` variants of `chain_impl_mockchain`, with each payload
abstracted to its content hash (`uid`) and, for transaction-carrying
variants, the verdict of `verify_possibly_balanced` (`balanced`). -/
inductive Fragment
  | initial (uid : Nat)
  | oldUtxoDeclaration (uid : Nat)
  | transaction (uid : Nat) (balanced : Bool)
  | stakeDelegation (uid : Nat) (balanced : Bool)
  | ownerStakeDelegation (uid : Nat) (balanced : Bool)
  | poolRegistration (uid : Nat) (balanced : Bool)
  | poolRetirement (uid : Nat) (balanced : Bool)
  | poolUpdate (uid : Nat) (balanced : Bool)
  | updateProposal (uid : Nat)
  | updateVote (uid : Nat)
  | votePlan (uid : Nat) (balanced : Bool)
  | voteCast (uid : Nat) (balanced : Bool)
  | voteTally (uid : Nat) (balanced : Bool)
  | encryptedVoteTally (uid : Nat) (balanced : Bool)
  deriving DecidableEq, Repr

/-- The content hash of a fragment (`Fragment::id`). -/
def Fragment.id : Fragment → FragmentId
  | .initial uid => uid
  | .oldUtxoDeclaration uid => uid
  | .transaction uid _ => uid
  | .stakeDelegation uid _ => uid
  | .ownerStakeDelegation uid _ => uid
  | .poolRegistration uid _ => uid
  | .poolRetirement uid _ => uid
  | .poolUpdate uid _ => uid
  | .updateProposal uid => uid
  | .updateVote uid => uid
  | .votePlan uid _ => uid
  | .voteCast uid _ => uid
  | .voteTally uid _ => uid
  | .encryptedVoteTally uid _ => uid

/-- `is_transaction_valid` from `fragment/pool.rs`: the transaction is
valid when `verify_possibly_balanced()` returns `Ok`, which is the
abstracted `balanced` flag. -/
def is_transaction_valid (balanced : Bool) : Bool := balanced

/-- `is_fragment_valid` from `fragment/pool.rs`, matching the source
case by case. -/
def is_fragment_valid : Fragment → Bool
  | .initial _ => false
  | .oldUtxoDeclaration _ => false
  | .transaction _ b => is_transaction_valid b
  | .stakeDelegation _ b => is_transaction_valid b
  | .ownerStakeDelegation _ b => is_transaction_valid b
  | .poolRegistration _ b => is_transaction_valid b
  | .poolRetirement _ b => is_transaction_valid b
  | .poolUpdate _ b => is_transaction_valid b
  | .updateProposal _ => false
  | .updateVote _ => false
  | .votePlan _ b => is_transaction_valid b
  | .voteCast _ b => is_transaction_valid b
  | .voteTally _ b => is_transaction_valid b
  | .encryptedVoteTally _ b => is_transaction_valid b

/-! ## Fragment logs

Modelled from the spec: the fragment log (`fragment/logs.rs` is not part
of the extracted sources).  A log is a collection of `FragmentLog`
entries keyed by fragment id; an entry is created on first admission
with status `Pending`; `exist_all` reports membership for a list of
ids; `insert_all` adds the entries whose id is not yet present. -/

inductive FragmentOrigin
  | network
  | rest
  deriving DecidableEq, Repr

inductive FragmentStatus
  | pending
  | rejected (reason : String)
  | inABlock (epoch slot block : Nat)
  deriving DecidableEq, Repr

structure FragmentLog where
  id : FragmentId
  origin : FragmentOrigin
  status : FragmentStatus
  deriving DecidableEq, Repr

/-- Modelled from the spec: `FragmentLog::new` (in `jormungandr-lib`,
not among the extracted sources) creates an entry with status
`Pending`.  The reception timestamp is not modelled. -/
def FragmentLog.new (id : FragmentId) (origin : FragmentOrigin) : FragmentLog :=
  { id := id, origin := origin, status := .pending }

structure Logs where
  entries : List FragmentLog
  deriving DecidableEq, Repr

/-- Modelled from the spec: membership of each id in the logs, in input
order (`Logs::exist_all`). -/
def Logs.exist_all (logs : Logs) (ids : List FragmentId) : List Bool :=
  ids.map fun i => logs.entries.any fun l => l.id == i

/-- Modelled from the spec: insert each entry whose id is not already
present (`Logs::insert_all`); a log entry is created on first
admission. -/
def Logs.insert_all (logs : Logs) (newEntries : List FragmentLog) : Logs :=
  newEntries.foldl
    (fun acc l => if acc.entries.any fun l0 => l0.id == l.id then acc
                  else { entries := acc.entries ++ [l] })
    logs

/-- Lookup of the log entry for an id. -/
def Logs.lookup (logs : Logs) (i : FragmentId) : Option FragmentLog :=
  logs.entries.find? fun l => l.id == i

/-! ## The LRU cache of the `lru` crate

The pool stores fragments in `lru::LruCache`.  We model the cache as a
list of key-value pairs ordered from least recently used (index 0) to
most recently used (last), with the capacity of the cache.  `put` of a
fresh key evicts the least recently used entry when the cache is full
(`len() == cap()`), exactly as the crate does. -/

structure LruCache where
  cap : Nat
  entries : List (FragmentId × Fragment)
  deriving DecidableEq, Repr

def LruCache.contains (c : LruCache) (k : FragmentId) : Bool :=
  c.entries.any fun e => e.1 == k

/-- `LruCache::put`.  An existing key has its value replaced and is
promoted to most recently used; a fresh key evicts the least recently
used entry when the cache is full, then is appended as most recently
used. -/
def LruCache.put (c : LruCache) (k : FragmentId) (v : Fragment) : LruCache :=
  if c.contains k then
    { c with entries := c.entries.filter (fun e => e.1 != k) ++ [(k, v)] }
  else
    { c with
      entries := (if c.entries.length == c.cap then c.entries.drop 1 else c.entries) ++ [(k, v)] }

/-! ## The internal pool (`pool.rs`, `mod internal`) -/

namespace internal

structure Pool where
  entries : LruCache
  deriving DecidableEq, Repr

def Pool.new (max_entries : Nat) : Pool :=
  { entries := { cap := max_entries, entries := [] } }

/-- `internal::Pool::insert`: returns a clone of the fragment if it was
registered, skipping ids already present in the store. -/
def Pool.insert (p : Pool) (fragment : Fragment) : Option Fragment × Pool :=
  let fragment_id := fragment.id
  if p.entries.contains fragment_id then
    (none, p)
  else
    (some fragment, { entries := p.entries.put fragment_id fragment })

/-- `internal::Pool::insert_all`: inserts fragments in order, returning
clones of those that were registered. -/
def Pool.insert_all (p : Pool) : List Fragment → List Fragment × Pool
  | [] => ([], p)
  | f :: fs =>
    match p.insert f with
    | (some g, p') =>
      let r := p'.insert_all fs
      (g :: r.1, r.2)
    | (none, p') => p'.insert_all fs

end internal

/-! ## Network message box

The network outbox is a bounded mpsc channel; `send` fails with
`SendError` when the receiver has been dropped.  We model the box by
the list of messages delivered so far together with how many more
sends the channel will accept before it is observed closed (`none`
meaning it stays open). -/

inductive PropagateMsg
  | fragment (f : Fragment)
  deriving DecidableEq, Repr

inductive NetworkMsg
  | propagate (m : PropagateMsg)
  deriving DecidableEq, Repr

structure MessageBox where
  accepts : Option Nat
  sent : List NetworkMsg
  deriving DecidableEq, Repr

/-- `MessageBox::send`: delivers the message while the channel is open;
returns the error flag `true` once the channel is closed. -/
def MessageBox.send (b : MessageBox) (m : NetworkMsg) : Bool × MessageBox :=
  match b.accepts with
  | none => (false, { b with sent := b.sent ++ [m] })
  | some 0 => (true, b)
  | some (n + 1) => (false, { accepts := some n, sent := b.sent ++ [m] })

/-- The propagation loop of `insert_and_propagate_all`: send one
`NetworkMsg::Propagate(PropagateMsg::Fragment(..))` per fragment, in
order, stopping at the first failed send.  Returns `true` when a send
failed, with the box as mutated by the successful sends. -/
def sendAllPropagations (b : MessageBox) : List Fragment → Bool × MessageBox
  | [] => (false, b)
  | f :: fs =>
    match b.send (.propagate (.fragment f)) with
    | (false, b') => sendAllPropagations b' fs
    | (true, b') => (true, b')

/-! ## The public pool (`pool.rs`, `Pool`) -/

namespace pool

inductive Error
  | CannotPropagate
  deriving DecidableEq, Repr

structure Pool where
  logs : Logs
  pool : internal.Pool
  network_msg_box : MessageBox
  deriving DecidableEq, Repr

/-- `Pool::insert_and_propagate_all`, translated statement by statement
from `fragment/pool.rs`:
1. retain only valid fragments, returning `Ok(0)` if none is left;
2. drop fragments whose id already appears in the logs;
3. insert the remainder into the LRU store, keeping the newly
   registered ones;
4. send one propagation message per new fragment, returning
   `Err(CannotPropagate)` at the first failed send (the `?` operator
   skips the rest of the function, including the log insertion);
5. insert one `Pending` log entry per new fragment and return the
   count. -/
def Pool.insert_and_propagate_all (st : Pool) (origin : FragmentOrigin)
    (fragments : List Fragment) : Except Error Nat × Pool :=
  let fragments := fragments.filter is_fragment_valid
  if fragments.isEmpty then (.ok 0, st)
  else
    let fragment_ids := fragments.map Fragment.id
    let fragments_exist_in_logs := st.logs.exist_all fragment_ids
    let new_fragments :=
      ((fragments.zip fragments_exist_in_logs).filter fun p => !p.2).map Prod.fst
    let inserted := st.pool.insert_all new_fragments
    let count := inserted.1.length
    let fragment_logs := inserted.1.map fun f => FragmentLog.new f.id origin
    match sendAllPropagations st.network_msg_box inserted.1 with
    | (true, box') =>
      (.error .CannotPropagate, { st with pool := inserted.2, network_msg_box := box' })
    | (false, box') =>
      (.ok count,
       { logs := st.logs.insert_all fragment_logs
         pool := inserted.2
         network_msg_box := box' })

end pool

/-! ## Notifier hub (`notifier/mod.rs`)

`Notifier::new_connection` reads the connection counter; a subscriber
below `max_connections` is admitted (the counter is stored back
incremented and a forwarding loop is spawned), otherwise a close frame
with code 4000 and reason "MAX CONNECTIONS reached" is sent and the
counter is left untouched.  Nothing in the module ever decreases the
counter; a subscriber disconnecting merely breaks its forwarding
loop. -/

def MAX_CONNECTIONS_DEFAULT : Nat := 255

def MAX_CONNECTIONS_ERROR_CLOSE_CODE : Nat := 4000

def MAX_CONNECTIONS_ERROR_REASON : String := "MAX CONNECTIONS reached"

inductive ConnOutcome
  | admitted
  | refused (code : Nat) (reason : String)
  deriving DecidableEq, Repr

/-- `Notifier::new_connection`: the counter is loaded; below
`max_connections` the incremented value is stored and the subscriber is
admitted, otherwise the close frame is sent and the counter is
unchanged. -/
def Notifier.new_connection (max_connections counter : Nat) : Nat × ConnOutcome :=
  if counter < max_connections then
    (counter + 1, .admitted)
  else
    (counter, .refused MAX_CONNECTIONS_ERROR_CLOSE_CODE MAX_CONNECTIONS_ERROR_REASON)

/-- The two subscriber-side events affecting the notifier: a new
connection attempt, and a subscriber disconnecting (its forwarding loop
breaking on a send error, which performs no counter operation). -/
inductive NotifierEvent
  | connect
  | disconnect
  deriving DecidableEq, Repr

/-- One notifier event applied to the connection counter, paired with
the outcome for a connecting subscriber. -/
def notifier_step (max_connections counter : Nat) :
    NotifierEvent → Nat × Option ConnOutcome
  | .connect =>
    let r := Notifier.new_connection max_connections counter
    (r.1, some r.2)
  | .disconnect => (counter, none)

/-- A sequence of notifier events, collecting the outcome of each
connection attempt in order. -/
def notifier_run (max_connections : Nat) : Nat → List NotifierEvent → Nat × List ConnOutcome
  | counter, [] => (counter, [])
  | counter, e :: es =>
    let r := notifier_step max_connections counter e
    let rest := notifier_run max_connections r.1 es
    (rest.1, (r.2.map fun o => [o]).getD [] ++ rest.2)

/-- Number of admitted subscribers among a list of outcomes. -/
def countAdmitted (outs : List ConnOutcome) : Nat :=
  (outs.filter fun o => o == ConnOutcome.admitted).length

/-! ## Peer client driver (`network/client/mod.rs`)

The driver multiplexes five sources per wake-up: the block-event
stream, the fragment stream, the gossip stream and the two outbound
request subscriptions.  Each visit yields `Poll<Result<
ProcessingOutcome, ()>>`; the `Progress` combinator folds them. -/

deriving instance DecidableEq for Except

inductive Poll (α : Type)
  | pending
  | ready (a : α)
  deriving DecidableEq, Repr

inductive ProcessingOutcome
  | cont
  | disconnect
  deriving DecidableEq, Repr

/-- `Progress::begin`: an `Err` outcome is mapped to `Disconnect`
(`res.unwrap_or(Disconnect)`). -/
def Progress.begin (r : Poll (Except Unit ProcessingOutcome)) : Poll ProcessingOutcome :=
  match r with
  | .pending => .pending
  | .ready (.ok o) => .ready o
  | .ready (.error _) => .ready .disconnect

/-- `Progress::and_proceed_with`: once `Disconnect` is recorded further
streams are not visited; otherwise the next source is polled and a
`Ready` outcome replaces the recorded one (`Err` becoming
`Disconnect`), while `Pending` keeps it. -/
def Progress.and_proceed_with (p : Poll ProcessingOutcome)
    (r : Poll (Except Unit ProcessingOutcome)) : Poll ProcessingOutcome :=
  match p with
  | .ready .disconnect => p
  | _ =>
    match r with
    | .pending => p
    | .ready (.ok o) => .ready o
    | .ready (.error _) => .ready .disconnect

/-- The five per-stream results of one pass of the `loop` in
`<Client as Future>::poll`. -/
structure IterEnv where
  block_event : Poll (Except Unit ProcessingOutcome)
  fragments : Poll (Except Unit ProcessingOutcome)
  gossip : Poll (Except Unit ProcessingOutcome)
  block_solicitations : Poll (Except Unit ProcessingOutcome)
  chain_pulls : Poll (Except Unit ProcessingOutcome)
  deriving DecidableEq, Repr

/-- The combined progress of one pass of the loop, exactly as the five
visits are chained in the source. -/
def iter_progress (e : IterEnv) : Poll ProcessingOutcome :=
  Progress.and_proceed_with
    (Progress.and_proceed_with
      (Progress.and_proceed_with
        (Progress.and_proceed_with (Progress.begin e.block_event) e.fragments)
        e.gossip)
      e.block_solicitations)
    e.chain_pulls

/-- The sinks closed by `Client::poll_shut_down`, in source order. -/
inductive Sink
  | block
  | fragment
  | gossip
  | clientBox
  deriving DecidableEq, Repr

/-- What one invocation of `<Client as Future>::poll` does: whether the
future returned `Ready(())` (the driver task completes), and which
sinks were closed by `poll_shut_down` in the process. -/
structure PollOut where
  completed : Bool
  closed_sinks : List Sink
  deriving DecidableEq, Repr

/-- `Client::poll_shut_down` closes the four sinks in sequence (close
errors are logged and ignored); readiness of the closes is abstracted
as immediate. -/
def Client.poll_shut_down : PollOut :=
  { completed := true, closed_sinks := [.block, .fragment, .gossip, .clientBox] }

/-- The `loop` of `<Client as Future>::poll`, driven by the list of
per-pass stream results: `Pending` returns `Poll::Pending`; `Continue`
loops; `Disconnect` logs "disconnecting client" and returns
`Ready(())` immediately, closing nothing.  An exhausted list stands
for a pass with no data, returning `Pending`. -/
def Client.poll_loop : List IterEnv → PollOut
  | [] => { completed := false, closed_sinks := [] }
  | e :: rest =>
    match iter_progress e with
    | .pending => { completed := false, closed_sinks := [] }
    | .ready .cont => Client.poll_loop rest
    | .ready .disconnect => { completed := true, closed_sinks := [] }

/-- `<Client as Future>::poll`: `poll_shut_down` runs only when the
`shutting_down` flag is already set, otherwise the multiplexing loop
runs. -/
def Client.poll (shutting_down : Bool) (iters : List IterEnv) : PollOut :=
  if shutting_down then Client.poll_shut_down else Client.poll_loop iters

/-- `Client::new` initializes `shutting_down` to `false`; no statement
in the module ever stores `true` into it. -/
def Client.new_shutting_down : Bool := false

/-! ## `Client::process_block_event` and the buffered slots

The two single-item slots `incoming_block_announcement` and
`incoming_solicitation` are flushed to the block sink and the client
request box before the block-event stream is polled; the writes into
the slots are guarded by `debug_assert!(slot.is_none())`. -/

abbrev Header := Nat

inductive ClientMsg
  | getBlocks (ids : List Nat)
  | getHeadersRange (checkpoints : List Nat) (upTo : List Nat)
  deriving DecidableEq, Repr

inductive BlockEvent
  | announce (header : Header)
  | solicit (block_ids : List Nat)
  | missing (checkpoints : List Nat) (upTo : List Nat)
  deriving DecidableEq, Repr

structure ClientSlots where
  incoming_block_announcement : Option Header
  incoming_solicitation : Option ClientMsg
  deriving DecidableEq, Repr

inductive SinkPoll
  | pending
  | ready_ok
  | ready_err
  deriving DecidableEq, Repr

inductive StreamPoll (α : Type)
  | pending
  | item (a : α)
  | ended
  | failed
  deriving DecidableEq, Repr

/-- The environment of one call to `process_block_event`: readiness and
flush results of the block sink and the client request box, success of
the buffered `start_send` calls, the next poll of the block-event
stream, and the decode verdicts inside `upload_blocks` and
`push_missing_headers`. -/
structure BlockEventEnv where
  block_sink_ready : SinkPoll
  block_sink_flush : SinkPoll
  block_sink_send_ok : Bool
  client_box_ready : SinkPoll
  client_box_flush : SinkPoll
  client_box_send_ok : Bool
  stream_next : StreamPoll BlockEvent
  solicit_decode_ok : Bool
  missing_checkpoints_decode_ok : Bool
  missing_to_decode_ok : Bool
  deriving DecidableEq, Repr

structure BlockEventOut where
  result : Poll (Except Unit ProcessingOutcome)
  slots : ClientSlots
  assert_failed : Bool
  polled_stream : Bool
  deriving DecidableEq, Repr

/-- `Client::process_block_event`, translated from the source: the
buffered announcement is flushed through the block sink (returning
`Pending` when the sink is not ready), the buffered solicitation is
flushed through the client request box likewise, and only then is the
block-event stream polled; an `Announce` buffers the header, a
`Solicit` or `Missing` buffers a client request (after decoding), each
behind `debug_assert!(slot.is_none())`, recorded in `assert_failed`. -/
def process_block_event (s0 : ClientSlots) (env : BlockEventEnv) : BlockEventOut :=
  match env.block_sink_ready with
  | .pending => ⟨.pending, s0, false, false⟩
  | .ready_err => ⟨.ready (.error ()), s0, false, false⟩
  | .ready_ok =>
    -- `take()` empties the announcement slot before `start_send`
    let s1 : ClientSlots := { s0 with incoming_block_announcement := none }
    let blockStepOk : Bool :=
      match s0.incoming_block_announcement with
      | some _ => env.block_sink_send_ok
      | none => env.block_sink_flush != SinkPoll.ready_err
    if !blockStepOk then ⟨.ready (.error ()), s1, false, false⟩
    else
      match env.client_box_ready with
      | .pending => ⟨.pending, s1, false, false⟩
      | .ready_err => ⟨.ready (.error ()), s1, false, false⟩
      | .ready_ok =>
        let s2 : ClientSlots := { s1 with incoming_solicitation := none }
        let boxStepOk : Bool :=
          match s1.incoming_solicitation with
          | some _ => env.client_box_send_ok
          | none => env.client_box_flush != SinkPoll.ready_err
        if !boxStepOk then ⟨.ready (.error ()), s2, false, false⟩
        else
          match env.stream_next with
          | .pending => ⟨.pending, s2, false, true⟩
          | .ended => ⟨.ready (.ok .disconnect), s2, false, true⟩
          | .failed => ⟨.ready (.error ()), s2, false, true⟩
          | .item (.announce h) =>
            ⟨.ready (.ok .cont),
             { s2 with incoming_block_announcement := some h },
             !(s2.incoming_block_announcement matches none), true⟩
          | .item (.solicit ids) =>
            if env.solicit_decode_ok then
              ⟨.ready (.ok .cont),
               { s2 with incoming_solicitation := some (.getBlocks ids) },
               !(s2.incoming_solicitation matches none), true⟩
            else ⟨.ready (.error ()), s2, false, true⟩
          | .item (.missing checkpoints upTo) =>
            if env.missing_checkpoints_decode_ok && env.missing_to_decode_ok then
              ⟨.ready (.ok .cont),
               { s2 with incoming_solicitation := some (.getHeadersRange checkpoints upTo) },
               !(s2.incoming_solicitation matches none), true⟩
            else ⟨.ready (.error ()), s2, false, true⟩

/-! ## Connection establishment (`network/client/connect.rs`) -/

abbrev HeaderHash := Nat

inductive ConnectError
  | canceled
  | transport
  | handshake
  | decodeBlock0
  | block0Mismatch (expected : HeaderHash) (peer_responded : HeaderHash)
  | subscription
  deriving DecidableEq, Repr

/-- `match_block0` from `connect.rs`. -/
def match_block0 (expected : HeaderHash) (peer_responded : HeaderHash) :
    Except ConnectError Unit :=
  if expected = peer_responded then .ok ()
  else .error (.block0Mismatch expected peer_responded)

/-- The effects of the remote peer and transport during `connect`: the
transport result, the handshake response bytes, the decoding of those
bytes by `HeaderHash::read`, and the results of the three subscription
requests. -/
structure ConnectEnv where
  transport_ok : Bool
  handshake_result : Except Unit (List Nat)
  decode : List Nat → Except Unit HeaderHash
  block_sub_ok : Bool
  fragment_sub_ok : Bool
  gossip_sub_ok : Bool

structure ConnectOut where
  result : Except ConnectError Unit
  subscriptions_opened : Bool
  deriving DecidableEq, Repr

/-- The connection task of `connect`, step by step: transport, then
`handshake`, then decoding of `block0`, then `match_block0` against the
expected hash, and only then the three subscription streams
(`try_join3`); `subscriptions_opened` records whether the subscription
requests were issued. -/
def connect (expected_block0_hash : HeaderHash) (env : ConnectEnv) : ConnectOut :=
  if !env.transport_ok then ⟨.error .transport, false⟩
  else
    match env.handshake_result with
    | .error _ => ⟨.error .handshake, false⟩
    | .ok block0_bytes =>
      match env.decode block0_bytes with
      | .error _ => ⟨.error .decodeBlock0, false⟩
      | .ok block0_hash =>
        match match_block0 expected_block0_hash block0_hash with
        | .error e => ⟨.error e, false⟩
        | .ok () =>
          if env.block_sub_ok && env.fragment_sub_ok && env.gossip_sub_ok then
            ⟨.ok (), true⟩
          else ⟨.error .subscription, true⟩

/-! ## The gossip `peers` RPC (`network/service.rs`)

The topology view is a list of nodes, each contributing an optional
socket address (`to_socket_addr`), together with the optional socket
address of the node itself. -/

abbrev Addr := Nat

structure TopologyView where
  peers : List (Option Addr)
  self_addr : Option Addr
  deriving DecidableEq, Repr

/-- The `for` loop of `GossipService::peers`: push each usable address,
breaking once `peers.len() >= limit` — the check happens after the
push. -/
def peersLoop (limit : Nat) : List (Option Addr) → List Addr → List Addr
  | [], acc => acc
  | n :: ns, acc =>
    match n with
    | some addr =>
      let acc' := acc ++ [addr]
      if acc'.length ≥ limit then acc' else peersLoop limit ns acc'
    | none => peersLoop limit ns acc

/-- `GossipService::peers`: collect up to (roughly) `limit` usable
addresses from the "any" selection view; if none was collected, fall
back to the node's own address as a bootstrap hint, when it has
one. -/
def peers_rpc (limit : Nat) (view : TopologyView) : List Addr :=
  let collected := peersLoop limit view.peers []
  if collected.isEmpty then
    match view.self_addr with
    | some a => [a]
    | none => []
  else collected

/-! ## Vote-plan proposals deserializer
(`jormungandr-lib/src/interfaces/vote.rs`)

`Proposals::push` lives in the external `chain_impl_mockchain` crate:
it refuses to grow past the compiled-in maximum, returning
`PushProposal::Full`; the bound is abstracted here as
`MAX_NUM_PROPOSALS`.  Each proposal payload is abstracted to a
`Nat`. -/

def MAX_NUM_PROPOSALS : Nat := 256

abbrev Proposal := Nat

structure Proposals where
  list : List Proposal
  deriving DecidableEq, Repr

inductive PushProposal
  | success
  | full
  deriving DecidableEq, Repr

/-- `Proposals::push` of the external crate: appends while below the
compiled-in maximum, otherwise reports `Full` without appending. -/
def Proposals.push (ps : Proposals) (p : Proposal) : PushProposal × Proposals :=
  if ps.list.length ≥ MAX_NUM_PROPOSALS then (.full, ps)
  else (.success, { list := ps.list ++ [p] })

/-- Possible ends of a deserializer run: a value, a decode error
surfaced to the caller, or a process abort via `panic!`. -/
inductive DeserializeOutcome (α : Type)
  | ok (a : α)
  | decodeError
  | panicked (msg : String)
  deriving DecidableEq, Repr

/-- The push loop of `deserialize_proposals`: each decoded proposal is
pushed; a `PushProposal::Full` result triggers
`panic!("too many proposals")`. -/
def pushAllProposals (ps : Proposals) : List Proposal → DeserializeOutcome Proposals
  | [] => .ok ps
  | p :: rest =>
    match ps.push p with
    | (.full, _) => .panicked "too many proposals"
    | (.success, ps') => pushAllProposals ps' rest

/-- `deserialize_proposals` from `vote.rs`: the proposals list is
deserialized (any serde failure surfacing as a decode error), then the
proposals are pushed one by one, aborting the process on
`PushProposal::Full`. -/
def deserialize_proposals (input : Except Unit (List Proposal)) :
    DeserializeOutcome Proposals :=
  match input with
  | .error _ => .decodeError
  | .ok items => pushAllProposals { list := [] } items

/-! # Theorems -/

/-! ## Helper lemmas -/

/-- The multiplexing loop of `Client::poll` never closes a sink. -/
theorem Client.poll_loop_closed_sinks (iters : List IterEnv) :
    (Client.poll_loop iters).closed_sinks = [] := by
  induction iters with
  | nil => rfl
  | cons e rest ih =>
    unfold Client.poll_loop
    cases iter_progress e with
    | pending => rfl
    | ready o => cases o with
      | cont => exact ih
      | disconnect => rfl

/-- The push loop of `deserialize_proposals` panics whenever the items
overflow the compiled-in maximum. -/
theorem pushAllProposals_overflow (items : List Proposal) (ps : Proposals)
    (hle : ps.list.length ≤ MAX_NUM_PROPOSALS)
    (hgt : MAX_NUM_PROPOSALS < ps.list.length + items.length) :
    pushAllProposals ps items = .panicked "too many proposals" := by
  induction items generalizing ps with
  | nil => simp at hgt; omega
  | cons p rest ih =>
    unfold pushAllProposals Proposals.push
    by_cases hfull : ps.list.length ≥ MAX_NUM_PROPOSALS
    · simp [hfull]
    · simp only [hfull, if_neg, if_false]
      apply ih
      · simpa using Nat.lt_of_not_le hfull
      · simp only [List.length_append, List.length_cons, List.length_nil]
        simp [List.length_cons] at hgt
        omega

/-- One notifier event never decreases the connection counter. -/
theorem notifier_step_le (max_connections counter : Nat) (e : NotifierEvent) :
    counter ≤ (notifier_step max_connections counter e).1 := by
  cases e with
  | connect =>
    unfold notifier_step Notifier.new_connection
    by_cases h : counter < max_connections <;> simp [h]
  | disconnect => exact Nat.le_refl _

theorem countAdmitted_cons (o : ConnOutcome) (os : List ConnOutcome) :
    countAdmitted (o :: os) =
      (if o = ConnOutcome.admitted then 1 else 0) + countAdmitted os := by
  unfold countAdmitted
  by_cases h : o = ConnOutcome.admitted <;> simp [h, List.filter_cons, Nat.add_comm]

/-- The connection counter equals its starting value plus the number of
admitted subscribers. -/
theorem notifier_run_counter (max_connections : Nat) (events : List NotifierEvent) :
    ∀ counter, (notifier_run max_connections counter events).1 =
      counter + countAdmitted (notifier_run max_connections counter events).2 := by
  induction events with
  | nil => intro c; simp [notifier_run, countAdmitted]
  | cons e es ih =>
    intro c
    unfold notifier_run
    cases e with
    | connect =>
      unfold notifier_step Notifier.new_connection
      by_cases h : c < max_connections <;>
        simp [h, countAdmitted_cons, ih, Nat.add_comm, Nat.add_assoc, Nat.add_left_comm]
    | disconnect =>
      unfold notifier_step
      simpa using ih c

/-- Once the counter is at or above the ceiling, every connection
attempt in the rest of the run is refused with the close frame. -/
theorem notifier_run_refuses (max_connections : Nat) (events : List NotifierEvent) :
    ∀ counter, max_connections ≤ counter →
      ∀ o ∈ (notifier_run max_connections counter events).2,
        o = ConnOutcome.refused MAX_CONNECTIONS_ERROR_CLOSE_CODE
              MAX_CONNECTIONS_ERROR_REASON := by
  induction events with
  | nil => intro c _ o ho; simp [notifier_run] at ho
  | cons e es ih =>
    intro c hc o ho
    unfold notifier_run at ho
    cases e with
    | connect =>
      unfold notifier_step Notifier.new_connection at ho
      have hnlt : ¬ c < max_connections := Nat.not_lt.mpr hc
      simp [hnlt] at ho
      rcases ho with h | h
      · exact h
      · exact ih c hc o h
    | disconnect =>
      unfold notifier_step at ho
      simp at ho
      exact ih c hc o ho

/-! ## Claim theorems -/

/-- Claim C3 (code bug): the spec says that whenever the peer client
driver commits to a disconnect it closes the block sink, the fragment
sink, the gossip sink and the client request box before the driver
task completes.  The code does not: the `Disconnect` arm of the loop
returns `Ready(())` directly, and the `shutting_down` flag guarding
`poll_shut_down` is initialized to `false` and never set, so the
shutdown routine is unreachable.  Evaluated at a wake-up whose
block-event stream ends, the driver completes with no sink closed;
moreover no run of the loop ever closes a sink. -/
theorem client_poll_disconnect_skips_shutdown :
    Client.poll Client.new_shutting_down
        [{ block_event := .ready (.ok .disconnect), fragments := .pending,
           gossip := .pending, block_solicitations := .pending,
           chain_pulls := .pending }] =
      { completed := true, closed_sinks := [] } ∧
    ∀ iters : List IterEnv,
      (Client.poll Client.new_shutting_down iters).closed_sinks = [] := by
  constructor
  · rfl
  · intro iters
    show (Client.poll_loop iters).closed_sinks = []
    exact Client.poll_loop_closed_sinks iters

/-- Claim C4 (code bug): the spec says a vote-plan proposals array
longer than the compiled-in maximum is rejected with a decode error;
the code instead runs `panic!("too many proposals")` inside
`deserialize_proposals`, aborting the process rather than returning a
deserialization error. -/
theorem deserialize_proposals_panics_on_overflow (items : List Proposal)
    (hgt : MAX_NUM_PROPOSALS < items.length) :
    deserialize_proposals (.ok items) = .panicked "too many proposals" ∧
    deserialize_proposals (.ok items) ≠ .decodeError := by
  have h : deserialize_proposals (.ok items) = .panicked "too many proposals" := by
    unfold deserialize_proposals
    exact pushAllProposals_overflow items { list := [] } (by simp) (by simpa using hgt)
  exact ⟨h, by simp [h]⟩

/-- Witness for C4 at a concrete overflowing input: 257 proposals. -/
theorem deserialize_proposals_panics_on_overflow_witness :
    deserialize_proposals (.ok (List.replicate 257 (0 : Proposal))) =
      .panicked "too many proposals" ∧
    deserialize_proposals (.ok (List.replicate 257 (0 : Proposal))) ≠ .decodeError :=
  deserialize_proposals_panics_on_overflow (List.replicate 257 0)
    (by simp only [List.length_replicate, MAX_NUM_PROPOSALS]; omega)

/-- Claim C6 (confirmed): when the block0 hash decoded from the peer's
handshake response differs from the expected block0 hash, the connect
task fails with `Block0Mismatch` carrying the expected and the received
hash, and the three subscription streams are not opened. -/
theorem connect_block0_mismatch (expected : HeaderHash) (env : ConnectEnv)
    (bytes : List Nat) (got : HeaderHash)
    (ht : env.transport_ok = true)
    (hh : env.handshake_result = .ok bytes)
    (hd : env.decode bytes = .ok got)
    (hne : got ≠ expected) :
    connect expected env =
      { result := .error (.block0Mismatch expected got), subscriptions_opened := false } := by
  simp [connect, match_block0, ht, hh, hd, Ne.symm hne]

/-- Witness for C6: expected `0xAA`, peer responds `0xBB`. -/
theorem connect_block0_mismatch_witness :
    connect 0xAA
        { transport_ok := true, handshake_result := .ok [1]
          decode := fun _ => .ok 0xBB, block_sub_ok := true
          fragment_sub_ok := true, gossip_sub_ok := true } =
      { result := .error (.block0Mismatch 0xAA 0xBB), subscriptions_opened := false } :=
  connect_block0_mismatch 0xAA _ [1] 0xBB rfl rfl rfl (by decide)

/-- Claim C7 (confirmed): a subscriber arriving while the counter is
below `max_connections` is admitted and the counter is incremented by
one; a subscriber arriving once the counter has reached
`max_connections` receives the close frame with code 4000 and reason
"MAX CONNECTIONS reached" and the counter is not incremented. -/
theorem new_connection_cap_enforced (max_connections counter : Nat) :
    (counter < max_connections →
       Notifier.new_connection max_connections counter =
         (counter + 1, ConnOutcome.admitted)) ∧
    (max_connections ≤ counter →
       Notifier.new_connection max_connections counter =
         (counter, ConnOutcome.refused 4000 "MAX CONNECTIONS reached")) := by
  constructor
  · intro h
    simp [Notifier.new_connection, h]
  · intro h
    simp [Notifier.new_connection, Nat.not_lt.mpr h,
      MAX_CONNECTIONS_ERROR_CLOSE_CODE, MAX_CONNECTIONS_ERROR_REASON]

/-- Witness for C7 with `max_connections = 2`: the subscriber arriving
at counter 1 is admitted; the one arriving at counter 2 is refused. -/
theorem new_connection_cap_enforced_witness :
    Notifier.new_connection 2 1 = (2, ConnOutcome.admitted) ∧
    Notifier.new_connection 2 2 =
      (2, ConnOutcome.refused 4000 "MAX CONNECTIONS reached") :=
  ⟨(new_connection_cap_enforced 2 1).1 (by decide),
   (new_connection_cap_enforced 2 2).2 (by decide)⟩

/-- Claim C9 (confirmed): no notifier operation decrements the
connection counter — a connection attempt either increments it or
leaves it unchanged, and a subscriber disconnection leaves it
unchanged — the counter always equals its start value plus the number
of admitted subscribers, and once the number of subscribers ever
admitted from a fresh counter reaches `max_connections`, every later
connection attempt is refused with the close frame, disconnections
notwithstanding. -/
theorem notifier_counter_never_decremented :
    (∀ (max_connections counter : Nat) (e : NotifierEvent),
       counter ≤ (notifier_step max_connections counter e).1) ∧
    (∀ (max_connections counter : Nat) (events : List NotifierEvent),
       (notifier_run max_connections counter events).1 =
         counter + countAdmitted (notifier_run max_connections counter events).2) ∧
    (∀ (max_connections : Nat) (events1 events2 : List NotifierEvent),
       countAdmitted (notifier_run max_connections 0 events1).2 = max_connections →
       ∀ o ∈ (notifier_run max_connections
                (notifier_run max_connections 0 events1).1 events2).2,
         o = ConnOutcome.refused 4000 "MAX CONNECTIONS reached") := by
  refine ⟨notifier_step_le, fun m c es => notifier_run_counter m es c, ?_⟩
  intro m es1 es2 hcount o ho
  have hc : (notifier_run m 0 es1).1 = m := by
    rw [notifier_run_counter m es1 0, hcount]
    exact Nat.zero_add m
  have := notifier_run_refuses m es2 (notifier_run m 0 es1).1 (by rw [hc]) o ho
  simpa [MAX_CONNECTIONS_ERROR_CLOSE_CODE, MAX_CONNECTIONS_ERROR_REASON] using this

/-- Witness for C9 with `max_connections = 1`: one admission followed
by a disconnection; the next connection attempt is still refused. -/
theorem notifier_counter_never_decremented_witness :
    0 ≤ (notifier_step 1 0 NotifierEvent.connect).1 ∧
    (notifier_run 1 0 [NotifierEvent.connect]).1 =
      0 + countAdmitted (notifier_run 1 0 [NotifierEvent.connect]).2 ∧
    ∀ o ∈ (notifier_run 1 (notifier_run 1 0 [NotifierEvent.connect]).1
             [NotifierEvent.disconnect, NotifierEvent.connect]).2,
      o = ConnOutcome.refused 4000 "MAX CONNECTIONS reached" :=
  ⟨notifier_counter_never_decremented.1 1 0 NotifierEvent.connect,
   notifier_counter_never_decremented.2.1 1 0 [NotifierEvent.connect],
   notifier_counter_never_decremented.2.2 1 [NotifierEvent.connect]
     [NotifierEvent.disconnect, NotifierEvent.connect] (by decide)⟩

/-- Claim C10 (confirmed): `process_block_event` flushes both buffered
slots before it polls the block-event stream — when the block sink is
not ready, and when the block-sink step succeeds but the client
request box is not ready, it returns `Pending` without polling the
stream — so when an `Announce` arrives the announcement slot is empty
and when a `Solicit` or `Missing` arrives the solicitation slot is
empty: the `debug_assert!` guards never fail, from any slot state. -/
theorem process_block_event_asserts_never_fail (s : ClientSlots) (env : BlockEventEnv) :
    (process_block_event s env).assert_failed = false ∧
    (env.block_sink_ready = SinkPoll.pending →
      (process_block_event s env).result = Poll.pending ∧
      (process_block_event s env).polled_stream = false) ∧
    (env.block_sink_ready = SinkPoll.ready_ok →
      env.block_sink_flush ≠ SinkPoll.ready_err →
      env.block_sink_send_ok = true →
      env.client_box_ready = SinkPoll.pending →
      (process_block_event s env).result = Poll.pending ∧
      (process_block_event s env).polled_stream = false) := by
  refine ⟨?_, ?_, ?_⟩
  · unfold process_block_event
    dsimp only
    repeat' split
    all_goals rfl
  · intro h
    unfold process_block_event
    rw [h]
    exact ⟨rfl, rfl⟩
  · intro h1 h2 h3 h4
    unfold process_block_event
    rw [h1, h4]
    have hb : (env.block_sink_flush != SinkPoll.ready_err) = true := by
      cases hf : env.block_sink_flush <;> simp_all
    cases hann : s.incoming_block_announcement <;> simp [h3, hb]

/-- Witness for C10: a call with both slots full and an `Announce`
arriving, and calls with a not-ready sink or box. -/
theorem process_block_event_asserts_never_fail_witness :
    (process_block_event
      { incoming_block_announcement := some 5,
        incoming_solicitation := some (ClientMsg.getBlocks [1]) }
      { block_sink_ready := SinkPoll.ready_ok, block_sink_flush := SinkPoll.ready_ok,
        block_sink_send_ok := true, client_box_ready := SinkPoll.ready_ok,
        client_box_flush := SinkPoll.ready_ok, client_box_send_ok := true,
        stream_next := StreamPoll.item (BlockEvent.announce 9),
        solicit_decode_ok := true, missing_checkpoints_decode_ok := true,
        missing_to_decode_ok := true }).assert_failed = false ∧
    (process_block_event
      { incoming_block_announcement := some 5,
        incoming_solicitation := none }
      { block_sink_ready := SinkPoll.pending, block_sink_flush := SinkPoll.ready_ok,
        block_sink_send_ok := true, client_box_ready := SinkPoll.ready_ok,
        client_box_flush := SinkPoll.ready_ok, client_box_send_ok := true,
        stream_next := StreamPoll.item (BlockEvent.solicit [2]),
        solicit_decode_ok := true, missing_checkpoints_decode_ok := true,
        missing_to_decode_ok := true }).result = Poll.pending ∧
    (process_block_event
      { incoming_block_announcement := none,
        incoming_solicitation := some (ClientMsg.getHeadersRange [1] [2]) }
      { block_sink_ready := SinkPoll.ready_ok, block_sink_flush := SinkPoll.ready_ok,
        block_sink_send_ok := true, client_box_ready := SinkPoll.pending,
        client_box_flush := SinkPoll.ready_ok, client_box_send_ok := true,
        stream_next := StreamPoll.item (BlockEvent.missing [1] [2]),
        solicit_decode_ok := true, missing_checkpoints_decode_ok := true,
        missing_to_decode_ok := true }).polled_stream = false :=
  ⟨(process_block_event_asserts_never_fail _ _).1,
   ((process_block_event_asserts_never_fail _ _).2.1 rfl).1,
   ((process_block_event_asserts_never_fail _ _).2.2 rfl (by decide) rfl rfl).2⟩

/-! ## Lemmas on the `peers` loop -/

theorem peersLoop_length_le (limit : Nat) (ns : List (Option Addr)) :
    ∀ acc : List Addr, acc.length < limit →
      (peersLoop limit ns acc).length ≤ limit := by
  induction ns with
  | nil => intro acc h; exact Nat.le_of_lt h
  | cons n ns ih =>
    intro acc h
    cases n with
    | some a =>
      unfold peersLoop
      by_cases hb : (acc ++ [a]).length ≥ limit
      · simp only [hb, if_pos]
        simpa using h
      · simp only [hb, if_neg, if_false]
        exact ih (acc ++ [a]) (Nat.lt_of_not_le hb)
    | none => exact ih acc h

theorem peersLoop_mem (limit : Nat) (ns : List (Option Addr)) :
    ∀ (acc : List Addr) (b : Addr), b ∈ peersLoop limit ns acc →
      b ∈ acc ∨ some b ∈ ns := by
  induction ns with
  | nil => intro acc b h; exact Or.inl h
  | cons n ns ih =>
    intro acc b h
    cases n with
    | some a =>
      unfold peersLoop at h
      by_cases hb : (acc ++ [a]).length ≥ limit
      · simp only [hb, if_pos] at h
        rcases List.mem_append.mp h with h | h
        · exact Or.inl h
        · simp at h
          subst h
          exact Or.inr (by simp)
      · simp only [hb, if_neg, if_false] at h
        rcases ih (acc ++ [a]) b h with h | h
        · rcases List.mem_append.mp h with h | h
          · exact Or.inl h
          · simp at h
            subst h
            exact Or.inr (by simp)
        · exact Or.inr (List.mem_cons_of_mem _ h)
    | none =>
      rcases ih acc b h with h | h
      · exact Or.inl h
      · exact Or.inr (List.mem_cons_of_mem _ h)

theorem peersLoop_all_none (limit : Nat) (ns : List (Option Addr))
    (h : ∀ x ∈ ns, x = none) : ∀ acc, peersLoop limit ns acc = acc := by
  induction ns with
  | nil => intro acc; rfl
  | cons n ns ih =>
    intro acc
    have hn : n = none := h n (by simp)
    subst hn
    exact ih (fun x hx => h x (List.mem_cons_of_mem _ hx)) acc

theorem peersLoop_length_mono (limit : Nat) (ns : List (Option Addr)) :
    ∀ acc : List Addr, acc.length ≤ (peersLoop limit ns acc).length := by
  induction ns with
  | nil => intro acc; exact Nat.le_refl _
  | cons n ns ih =>
    intro acc
    cases n with
    | some a =>
      unfold peersLoop
      by_cases hb : (acc ++ [a]).length ≥ limit
      · simp only [hb, if_pos]
        simp
      · simp only [hb, if_neg, if_false]
        calc acc.length ≤ (acc ++ [a]).length := by simp
          _ ≤ _ := ih (acc ++ [a])
    | none => exact ih acc

theorem peersLoop_ne_nil (limit : Nat) (ns : List (Option Addr)) :
    ∀ (acc : List Addr) (a : Addr), some a ∈ ns →
      peersLoop limit ns acc ≠ [] := by
  induction ns with
  | nil => intro acc a h; simp at h
  | cons n ns ih =>
    intro acc a h
    cases n with
    | some b =>
      unfold peersLoop
      dsimp only
      by_cases hb : (acc ++ [b]).length ≥ limit
      · rw [if_pos hb]
        simp
      · rw [if_neg hb]
        intro hnil
        have := peersLoop_length_mono limit ns (acc ++ [b])
        rw [hnil] at this
        simp at this
    | none =>
      have hmem : some a ∈ ns := by
        rcases List.mem_cons.mp h with h | h
        · exact absurd h (by simp)
        · exact h
      exact ih acc a hmem

/-- Claim C8 counterexample: with `limit = 0` and one usable peer in
the view, `peers(limit)` returns one address, more than `limit` — the
source checks `peers.len() >= limit` only after pushing. -/
theorem peers_rpc_limit_zero_cex :
    peers_rpc 0 { peers := [some 7], self_addr := some 9 } = [7] ∧
    ¬ (peers_rpc 0 { peers := [some 7], self_addr := some 9 }).length ≤ 0 := by
  constructor
  · rfl
  · decide

/-- Claim C8 (amended): for every `limit ≥ 1`, `peers(limit)` returns
at most `limit` addresses; when the "any" selection view yields at
least one usable peer address every returned address is a usable peer
address from the view, and when it yields none the node's own address
is returned as the bootstrap hint (the node itself being assumed to
have a usable address).  For `limit = 0` the bound can be exceeded by
one. -/
theorem peers_rpc_amended (limit : Nat) (view : TopologyView) (s : Addr)
    (hlim : 1 ≤ limit) (hself : view.self_addr = some s) :
    (peers_rpc limit view).length ≤ limit ∧
    ((∃ a, some a ∈ view.peers) →
      ∀ b ∈ peers_rpc limit view, some b ∈ view.peers) ∧
    ((¬ ∃ a, some a ∈ view.peers) → peers_rpc limit view = [s]) := by
  refine ⟨?_, ?_, ?_⟩
  · unfold peers_rpc
    by_cases he : (peersLoop limit view.peers []).isEmpty
    · simp only [he, if_pos, hself]
      simpa using hlim
    · simp only [he, if_neg, if_false]
      exact peersLoop_length_le limit view.peers []
        (by simpa using Nat.lt_of_lt_of_le Nat.zero_lt_one hlim)
  · rintro ⟨a, ha⟩ b hb
    unfold peers_rpc at hb
    have hne : peersLoop limit view.peers [] ≠ [] :=
      peersLoop_ne_nil limit view.peers [] a ha
    have he : (peersLoop limit view.peers []).isEmpty = false := by
      simpa [List.isEmpty_iff] using hne
    simp only [he, Bool.false_eq_true, if_false] at hb
    rcases peersLoop_mem limit view.peers [] b hb with h | h
    · simp at h
    · exact h
  · intro hno
    have hall : ∀ x ∈ view.peers, x = none := by
      intro x hx
      cases x with
      | none => rfl
      | some a => exact absurd ⟨a, hx⟩ hno
    unfold peers_rpc
    rw [peersLoop_all_none limit view.peers hall []]
    simp [hself]

/-- Witness for C8 (amended) at `limit = 2` with one unusable and two
usable peers, and a view with no usable peers. -/
theorem peers_rpc_amended_witness :
    (peers_rpc 2 { peers := [none, some 7, some 8], self_addr := some 9 }).length ≤ 2 ∧
    (∀ b ∈ peers_rpc 2 { peers := [none, some 7, some 8], self_addr := some 9 },
      some b ∈ [Option.none, some 7, some 8]) ∧
    peers_rpc 2 { peers := [none, none], self_addr := some 9 } = [9] :=
  ⟨(peers_rpc_amended 2 _ 9 (by decide) rfl).1,
   (peers_rpc_amended 2 { peers := [none, some 7, some 8], self_addr := some 9 } 9
      (by decide) rfl).2.1 ⟨7, by simp⟩,
   (peers_rpc_amended 2 { peers := [none, none], self_addr := some 9 } 9
      (by decide) rfl).2.2 (by simp)⟩

/-- Every run of the propagation loop only appends messages to the
outbox: the messages delivered before a failure stay delivered. -/
theorem sendAllPropagations_sent (fs : List Fragment) :
    ∀ b : MessageBox, ∃ ms, (sendAllPropagations b fs).2.sent = b.sent ++ ms := by
  induction fs with
  | nil => intro b; exact ⟨[], by simp [sendAllPropagations]⟩
  | cons f fs ih =>
    intro b
    unfold sendAllPropagations MessageBox.send
    cases hacc : b.accepts with
    | none =>
      obtain ⟨ms, hms⟩ := ih { accepts := none, sent := b.sent ++ [.propagate (.fragment f)] }
      exact ⟨.propagate (.fragment f) :: ms, by simp [hms]⟩
    | some n =>
      cases n with
      | zero => exact ⟨[], by simp⟩
      | succ m =>
        obtain ⟨ms, hms⟩ :=
          ih { accepts := some m, sent := b.sent ++ [.propagate (.fragment f)] }
        exact ⟨.propagate (.fragment f) :: ms, by simp [hms]⟩

/-- Claim C1 counterexample: with a closed outbox and one valid new
fragment, `insert_and_propagate_all` returns `CannotPropagate`, the
fragment is admitted to the mempool, but no fragment-log entry is
inserted — the `?` on the failed send skips `logs.insert_all`,
contradicting the claim that the log insertion is still attempted. -/
theorem insert_and_propagate_logs_skipped_cex :
    (pool.Pool.insert_and_propagate_all
        { logs := { entries := [] }, pool := internal.Pool.new 2,
          network_msg_box := { accepts := some 0, sent := [] } }
        FragmentOrigin.rest [Fragment.transaction 1 true]).1 =
      Except.error pool.Error.CannotPropagate ∧
    (pool.Pool.insert_and_propagate_all
        { logs := { entries := [] }, pool := internal.Pool.new 2,
          network_msg_box := { accepts := some 0, sent := [] } }
        FragmentOrigin.rest [Fragment.transaction 1 true]).2.pool.entries.entries =
      [(1, Fragment.transaction 1 true)] ∧
    (pool.Pool.insert_and_propagate_all
        { logs := { entries := [] }, pool := internal.Pool.new 2,
          network_msg_box := { accepts := some 0, sent := [] } }
        FragmentOrigin.rest [Fragment.transaction 1 true]).2.logs.entries = [] := by
  refine ⟨?_, ?_, ?_⟩ <;> decide

/-- Claim C1 (amended): when `insert_and_propagate_all` fails with
`CannotPropagate` because the outbox is closed, the error is returned
to the caller, the fragment logs are left entirely unchanged (the log
insertion is skipped by the early return, not attempted), and the
propagation messages already sent are not rolled back — the outbox
keeps every message delivered before the failure. -/
theorem insert_and_propagate_cannot_propagate_behavior (st : pool.Pool)
    (origin : FragmentOrigin) (fragments : List Fragment)
    (h : (st.insert_and_propagate_all origin fragments).1 =
      Except.error pool.Error.CannotPropagate) :
    (st.insert_and_propagate_all origin fragments).2.logs = st.logs ∧
    ∃ ms, (st.insert_and_propagate_all origin fragments).2.network_msg_box.sent =
      st.network_msg_box.sent ++ ms := by
  unfold pool.Pool.insert_and_propagate_all at h ⊢
  dsimp only at h ⊢
  by_cases hfe : ((fragments.filter is_fragment_valid).isEmpty : Bool) = true
  · simp [hfe] at h
  · simp only [hfe, Bool.false_eq_true, if_false] at h ⊢
    rcases hs : sendAllPropagations st.network_msg_box
        (st.pool.insert_all
          ((((fragments.filter is_fragment_valid).zip
              (st.logs.exist_all ((fragments.filter is_fragment_valid).map Fragment.id))).filter
            (fun p => !p.2)).map Prod.fst)).1 with ⟨flag, box'⟩
    rw [hs] at h ⊢
    cases flag
    · simp at h
    · refine ⟨rfl, ?_⟩
      obtain ⟨ms, hms⟩ := sendAllPropagations_sent _ st.network_msg_box
      rw [hs] at hms
      exact ⟨ms, hms⟩

/-- Witness for C1 (amended): an outbox accepting one message and two
valid fragments — the first propagation is delivered, the second
fails; the call errors, the logs stay empty and the delivered message
stays in the outbox. -/
theorem insert_and_propagate_cannot_propagate_behavior_witness :
    (pool.Pool.insert_and_propagate_all
        { logs := { entries := [] }, pool := internal.Pool.new 2,
          network_msg_box := { accepts := some 1, sent := [] } }
        FragmentOrigin.rest
        [Fragment.transaction 1 true, Fragment.transaction 2 true]).2.logs =
      ({ logs := { entries := [] }, pool := internal.Pool.new 2,
         network_msg_box := { accepts := some 1, sent := [] } } : pool.Pool).logs ∧
    ∃ ms, (pool.Pool.insert_and_propagate_all
        { logs := { entries := [] }, pool := internal.Pool.new 2,
          network_msg_box := { accepts := some 1, sent := [] } }
        FragmentOrigin.rest
        [Fragment.transaction 1 true, Fragment.transaction 2 true]).2.network_msg_box.sent =
      ({ logs := { entries := [] }, pool := internal.Pool.new 2,
         network_msg_box := { accepts := some 1, sent := [] } } : pool.Pool).network_msg_box.sent
        ++ ms :=
  insert_and_propagate_cannot_propagate_behavior _ FragmentOrigin.rest _ (by decide)

/-- Claim C2 (confirmed): from an empty mempool and empty fragment log,
`insert_and_propagate_all` on `[F1, F1, F2]` with `F1`, `F2` distinct
admissible fragments returns count 2, delivers exactly one propagation
message for each of `F1` and `F2` in input order, and creates exactly
two log entries, both `Pending`. -/
theorem insert_and_propagate_dedup (origin : FragmentOrigin) (st : pool.Pool)
    (F1 F2 : Fragment)
    (hlogs : st.logs.entries = [])
    (hpool : st.pool.entries.entries = [])
    (hbox : st.network_msg_box.accepts = none)
    (hv1 : is_fragment_valid F1 = true) (hv2 : is_fragment_valid F2 = true)
    (hne : F1.id ≠ F2.id) :
    (st.insert_and_propagate_all origin [F1, F1, F2]).1 = .ok 2 ∧
    (st.insert_and_propagate_all origin [F1, F1, F2]).2.network_msg_box.sent =
      st.network_msg_box.sent ++
        [.propagate (.fragment F1), .propagate (.fragment F2)] ∧
    (st.insert_and_propagate_all origin [F1, F1, F2]).2.logs.entries =
      [FragmentLog.new F1.id origin, FragmentLog.new F2.id origin] ∧
    ∀ l ∈ (st.insert_and_propagate_all origin [F1, F1, F2]).2.logs.entries,
      l.status = FragmentStatus.pending := by
  have h12 : (F1.id == F2.id) = false := beq_eq_false_iff_ne.mpr hne
  refine ⟨?_, ?_, ?_, ?_⟩ <;>
    simp [pool.Pool.insert_and_propagate_all, hlogs, hpool, hbox, hv1, hv2, h12, hne,
      Logs.exist_all, Logs.insert_all, internal.Pool.insert_all, internal.Pool.insert,
      LruCache.put, LruCache.contains, sendAllPropagations, MessageBox.send,
      FragmentLog.new]

/-- Witness for C2 at concrete fragments `F1`, `F2` with ids 1 and 2
and an empty capacity-2 mempool. -/
theorem insert_and_propagate_dedup_witness :
    (pool.Pool.insert_and_propagate_all
        { logs := { entries := [] }, pool := internal.Pool.new 2,
          network_msg_box := { accepts := none, sent := [] } }
        FragmentOrigin.rest
        [Fragment.transaction 1 true, Fragment.transaction 1 true,
         Fragment.transaction 2 true]).1 = .ok 2 ∧
    (pool.Pool.insert_and_propagate_all
        { logs := { entries := [] }, pool := internal.Pool.new 2,
          network_msg_box := { accepts := none, sent := [] } }
        FragmentOrigin.rest
        [Fragment.transaction 1 true, Fragment.transaction 1 true,
         Fragment.transaction 2 true]).2.network_msg_box.sent =
      ({ accepts := none, sent := [] } : MessageBox).sent ++
        [.propagate (.fragment (Fragment.transaction 1 true)),
         .propagate (.fragment (Fragment.transaction 2 true))] :=
  ⟨(insert_and_propagate_dedup FragmentOrigin.rest _
      (Fragment.transaction 1 true) (Fragment.transaction 2 true)
      rfl rfl rfl (by decide) (by decide) (by decide)).1,
   (insert_and_propagate_dedup FragmentOrigin.rest _
      (Fragment.transaction 1 true) (Fragment.transaction 2 true)
      rfl rfl rfl (by decide) (by decide) (by decide)).2.1⟩

/-- Claim C5 (confirmed): inserting a valid fragment with a fresh id
into a mempool holding exactly `max_entries` fragments evicts exactly
one entry — the least recently used one, the head of the LRU order —
keeps the store at capacity, and leaves every other fragment's log
entry unmodified (in particular the evicted fragment's entry remains
`Pending`). -/
theorem insert_at_capacity_evicts_lru (origin : FragmentOrigin) (st : pool.Pool)
    (F : Fragment)
    (hv : is_fragment_valid F = true)
    (hfull : st.pool.entries.entries.length = st.pool.entries.cap)
    (hcap : 1 ≤ st.pool.entries.cap)
    (hnotin : st.pool.entries.contains F.id = false)
    (hnolog : (st.logs.entries.any fun l => l.id == F.id) = false)
    (hbox : st.network_msg_box.accepts = none) :
    (st.insert_and_propagate_all origin [F]).1 = .ok 1 ∧
    (st.insert_and_propagate_all origin [F]).2.pool.entries.entries =
      st.pool.entries.entries.drop 1 ++ [(F.id, F)] ∧
    (st.insert_and_propagate_all origin [F]).2.pool.entries.entries.length =
      st.pool.entries.cap ∧
    ∀ i, i ≠ F.id →
      (st.insert_and_propagate_all origin [F]).2.logs.lookup i = st.logs.lookup i := by
  have hbeq : (st.pool.entries.entries.length == st.pool.entries.cap) = true :=
    beq_iff_eq.mpr hfull
  have hnotin2 : (st.pool.entries.entries.any fun e => e.1 == F.id) = false := by
    simpa [LruCache.contains] using hnotin
  refine ⟨?_, ?_, ?_, ?_⟩
  · simp [pool.Pool.insert_and_propagate_all, hv, hnolog, hnotin2, hbeq, hbox,
      Logs.exist_all, Logs.insert_all, internal.Pool.insert_all, internal.Pool.insert,
      LruCache.put, LruCache.contains, sendAllPropagations, MessageBox.send,
      FragmentLog.new]
  · simp [pool.Pool.insert_and_propagate_all, hv, hnolog, hnotin2, hbeq, hbox,
      Logs.exist_all, Logs.insert_all, internal.Pool.insert_all, internal.Pool.insert,
      LruCache.put, LruCache.contains, sendAllPropagations, MessageBox.send,
      FragmentLog.new]
  · simp [pool.Pool.insert_and_propagate_all, hv, hnolog, hnotin2, hbeq, hbox,
      Logs.exist_all, Logs.insert_all, internal.Pool.insert_all, internal.Pool.insert,
      LruCache.put, LruCache.contains, sendAllPropagations, MessageBox.send,
      FragmentLog.new]
    omega
  · intro i hi
    have hnolog2 : ¬ ∃ x ∈ st.logs.entries, x.id = F.id := by simpa using hnolog
    simp [pool.Pool.insert_and_propagate_all, hv, hnolog, hnotin2, hbeq, hbox,
      Logs.exist_all, Logs.insert_all, internal.Pool.insert_all, internal.Pool.insert,
      LruCache.put, LruCache.contains, sendAllPropagations, MessageBox.send,
      FragmentLog.new, Logs.lookup, hnolog2, Ne.symm hi]

/-- Witness for C5: capacity 2 holding `F1` then `F2` (in LRU order),
inserting `F3` leaves the pool holding exactly `F2` and `F3` and keeps
`F1`'s log entry `Pending`. -/
theorem insert_at_capacity_evicts_lru_witness :
    (pool.Pool.insert_and_propagate_all
        { logs := { entries := [FragmentLog.new 1 FragmentOrigin.rest,
                                FragmentLog.new 2 FragmentOrigin.rest] },
          pool :=
            { entries :=
                { cap := 2,
                  entries := [(1, Fragment.transaction 1 true),
                              (2, Fragment.transaction 2 true)] } },
          network_msg_box := { accepts := none, sent := [] } }
        FragmentOrigin.rest [Fragment.transaction 3 true]).2.pool.entries.entries =
      [(2, Fragment.transaction 2 true), (3, Fragment.transaction 3 true)] ∧
    (pool.Pool.insert_and_propagate_all
        { logs := { entries := [FragmentLog.new 1 FragmentOrigin.rest,
                                FragmentLog.new 2 FragmentOrigin.rest] },
          pool :=
            { entries :=
                { cap := 2,
                  entries := [(1, Fragment.transaction 1 true),
                              (2, Fragment.transaction 2 true)] } },
          network_msg_box := { accepts := none, sent := [] } }
        FragmentOrigin.rest [Fragment.transaction 3 true]).2.logs.lookup 1 =
      some { id := 1, origin := FragmentOrigin.rest, status := FragmentStatus.pending } :=
  ⟨by
    have := (insert_at_capacity_evicts_lru FragmentOrigin.rest
      { logs := { entries := [FragmentLog.new 1 FragmentOrigin.rest,
                                  FragmentLog.new 2 FragmentOrigin.rest] },
            pool :=
              { entries :=
                  { cap := 2,
                    entries := [(1, Fragment.transaction 1 true),
                                (2, Fragment.transaction 2 true)] } },
            network_msg_box := { accepts := none, sent := [] } }
      (Fragment.transaction 3 true) (by decide) (by decide) (by decide)
      (by decide) (by decide) rfl).2.1
    simpa using this,
   by
    have := (insert_at_capacity_evicts_lru FragmentOrigin.rest
      { logs := { entries := [FragmentLog.new 1 FragmentOrigin.rest,
                                  FragmentLog.new 2 FragmentOrigin.rest] },
            pool :=
              { entries :=
                  { cap := 2,
                    entries := [(1, Fragment.transaction 1 true),
                                (2, Fragment.transaction 2 true)] } },
            network_msg_box := { accepts := none, sent := [] } }
      (Fragment.transaction 3 true) (by decide) (by decide) (by decide)
      (by decide) (by decide) rfl).2.2.2 1 (by decide)
    rw [this]
    decide⟩

end Jormungandr
